/-
Verification of the ztype nullable scalar wrappers.

This file gives a shallow embedding of the ztype Go package: the generic
`Numeric[T]` wrapper over the eleven integer kinds (signed and unsigned
8/16/32/64-bit, machine word, pointer word), its text / tagged-literal
(JSON) codecs, the storage scan/value bridge, and the sibling `Duration`,
`Time`, `String` and `Byte` wrappers as far as the verified properties
need them.  Machine integers are embedded as `Int` together with explicit
two's-complement reduction (`NumKind.wrap`); fallible operations return an
`Option ZErr` next to the post-state, mirroring Go's `(T, error)` returns;
a panic is `Option.none`.
-/
import Mathlib

namespace ZType

/-- Abbreviation for Lean's string type, used in signatures where the
embedded wrapper methods named `String` would otherwise shadow it. -/
abbrev Str := String

/-- The closed set of integer representations accepted by `NumberType`
(`int`, `int8..64`, `uint`, `uint8..64`, `uintptr`); the two float kinds
are modelled separately (`NumericF`).  `int`/`uint`/`uintptr` are taken at
their 64-bit width, matching the spec's machine-word reading. -/
inductive NumKind
  | int | int8 | int16 | int32 | int64
  | uint | uint8 | uint16 | uint32 | uint64 | uintptr
  deriving DecidableEq, Repr

/-- Bit width of each kind. -/
def NumKind.bits : NumKind → Nat
  | .int8 => 8
  | .int16 => 16
  | .int32 => 32
  | .int => 64
  | .int64 => 64
  | .uint8 => 8
  | .uint16 => 16
  | .uint32 => 32
  | .uint => 64
  | .uint64 => 64
  | .uintptr => 64

/-- Whether the kind is a signed integer kind. -/
def NumKind.signed : NumKind → Bool
  | .int | .int8 | .int16 | .int32 | .int64 => true
  | _ => false

/-- Smallest representable value of the kind. -/
def NumKind.minVal (k : NumKind) : Int :=
  if k.signed then -(2 ^ (k.bits - 1)) else 0

/-- Largest representable value of the kind. -/
def NumKind.maxVal (k : NumKind) : Int :=
  if k.signed then 2 ^ (k.bits - 1) - 1 else 2 ^ k.bits - 1

/-- Reduce an unbounded integer into the kind's range, with the
two's-complement wraparound of Go's native fixed-width arithmetic and
conversions. -/
def NumKind.wrap (k : NumKind) (x : Int) : Int :=
  if k.signed then (x + 2 ^ (k.bits - 1)) % 2 ^ k.bits - 2 ^ (k.bits - 1)
  else x % 2 ^ k.bits

/-- The kinds that `Numeric.UnmarshalText`'s `switch` sends to `parseUint`:
`reflect.Uint, Uint8, Uint16, Uint32, Uint64`.  Note that `reflect.Uintptr`
is absent from that case list in the source, so `uintptr` falls into the
`default` branch (`parseInt`). -/
def NumKind.usesUintParse : NumKind → Bool
  | .uint | .uint8 | .uint16 | .uint32 | .uint64 => true
  | _ => false

deriving instance DecidableEq for Except

/-- Classification of the `error` values produced by the package
(`strconv` syntax errors, the overflow errors of `parseInt`/`parseUint`/
`strconv`'s range errors, `cannot divide by zero`, `cannot compare null
values`, and the scan bridge's unsupported-type error). -/
inductive ZErr
  | parseErr | overflow | divisionByZero | nullComparison | unsupportedType
  deriving DecidableEq, Repr

/-- `Numeric[T]` for an integer kind `k`: `sql.Null[T]`'s `{V, Valid}`
pair plus the `unmarshaled` flag.  The stored value is embedded as an
unbounded `Int`; every operation of the source keeps it inside `k`'s
range via `NumKind.wrap` exactly where Go's fixed-width semantics would. -/
structure Numeric (k : NumKind) where
  value : Int
  valid : Bool
  unmarshaled : Bool
  deriving DecidableEq, Repr

/-- `NewNumber`: a valid wrapper holding `value`. -/
def NewNumber (k : NumKind) (value : Int) : Numeric k :=
  ⟨value, true, false⟩

/-- `NewNullNumber`: a null wrapper (zero value, invalid). -/
def NewNullNumber (k : NumKind) : Numeric k :=
  ⟨0, false, false⟩

/-- `Get`: the stored value (zero when null for states built by the
constructors). -/
def Numeric.Get (n : Numeric k) : Int :=
  n.value

/-- `Set`: overwrite the value, mark valid; `unmarshaled` untouched. -/
def Numeric.Set (n : Numeric k) (value : Int) : Numeric k :=
  { n with value := value, valid := true }

/-- `SetNull`: zero the value, mark invalid; `unmarshaled` untouched. -/
def Numeric.SetNull (n : Numeric k) : Numeric k :=
  { n with value := 0, valid := false }

/-- `IsNull`: negation of the valid flag. -/
def Numeric.IsNull (n : Numeric k) : Bool :=
  !n.valid

/-- `Equal`: compares valid flag and value together. -/
def Numeric.Equal (n other : Numeric k) : Bool :=
  n.valid == other.valid && n.value == other.value

/-- `EqualRaw`: compares the stored value against a raw value; the body
`n.value.V == other` never consults the valid flag. -/
def Numeric.EqualRaw (n : Numeric k) (other : Int) : Bool :=
  n.value == other

/-- `Add`: null if either operand is null, else the native-width sum. -/
def Numeric.Add (n other : Numeric k) : Numeric k :=
  if !n.valid || !other.valid then NewNullNumber k
  else NewNumber k (k.wrap (n.value + other.value))

/-- `Sub`: null if either operand is null, else the native-width
difference. -/
def Numeric.Sub (n other : Numeric k) : Numeric k :=
  if !n.valid || !other.valid then NewNullNumber k
  else NewNumber k (k.wrap (n.value - other.value))

/-- `Mult`: null if either operand is null, else the native-width
product. -/
def Numeric.Mult (n other : Numeric k) : Numeric k :=
  if !n.valid || !other.valid then NewNullNumber k
  else NewNumber k (k.wrap (n.value * other.value))

/-- `SafeDiv`: a null or zero divisor yields a null result plus the
division-by-zero error; otherwise the truncated quotient of the stored
values (the dividend's valid flag is never consulted).  Go's `/` on
integers truncates toward zero, embedded as `Int.tdiv`, and the lone
overflowing case `min / -1` wraps. -/
def Numeric.SafeDiv (n other : Numeric k) : Numeric k × Option ZErr :=
  if !other.valid || other.value == 0 then
    (NewNullNumber k, some .divisionByZero)
  else
    (NewNumber k (k.wrap (Int.tdiv n.value other.value)), none)

/-- `Div`: calls `SafeDiv` and panics on its error; the panic is
`Option.none`. -/
def Numeric.Div (n other : Numeric k) : Option (Numeric k) :=
  match n.SafeDiv other with
  | (_, some _) => none
  | (value, none) => some value

/-- `Compare`: error if either operand is null, else -1/0/1. -/
def Numeric.Compare (n other : Numeric k) : Except ZErr Int :=
  if !n.valid || !other.valid then .error .nullComparison
  else if n.value < other.value then .ok (-1)
  else if n.value > other.value then .ok 1
  else .ok 0

/-- `Greater`: false if either operand is null. -/
def Numeric.Greater (n other : Numeric k) : Bool :=
  if !n.valid || !other.valid then false
  else decide (n.value > other.value)

/-- `GreaterOrEqual`: false if either operand is null. -/
def Numeric.GreaterOrEqual (n other : Numeric k) : Bool :=
  if !n.valid || !other.valid then false
  else decide (n.value ≥ other.value)

/-- `Less`: false if either operand is null. -/
def Numeric.Less (n other : Numeric k) : Bool :=
  if !n.valid || !other.valid then false
  else decide (n.value < other.value)

/-- `LessOrEqual`: false if either operand is null. -/
def Numeric.LessOrEqual (n other : Numeric k) : Bool :=
  if !n.valid || !other.valid then false
  else decide (n.value ≤ other.value)

/-- `Min`: null absorbs nothing — a null operand yields the other. -/
def Numeric.Min (n other : Numeric k) : Numeric k :=
  if !n.valid && !other.valid then NewNullNumber k
  else if !n.valid then other
  else if !other.valid then n
  else if n.value ≤ other.value then n
  else other

/-- `Max`: a null operand yields the other operand. -/
def Numeric.Max (n other : Numeric k) : Numeric k :=
  if !n.valid && !other.valid then NewNullNumber k
  else if !n.valid then other
  else if !other.valid then n
  else if n.value ≥ other.value then n
  else other

/-- The decimal digit character for `d < 10`. -/
def digitChar (d : Nat) : Char :=
  Char.ofNat (48 + d)

/-- Little-endian decimal digits of `n`, with explicit fuel (any
`fuel ≥ n` is enough). -/
def natDigitsAux : Nat → Nat → List Nat
  | 0, _ => []
  | _ + 1, 0 => []
  | fuel + 1, n + 1 => ((n + 1) % 10) :: natDigitsAux fuel ((n + 1) / 10)

/-- Decimal rendering of a natural number, as Go's `%v`/`%d` produce
it: minimal digits, `"0"` for zero. -/
def formatNat (n : Nat) : Str :=
  if n = 0 then "0" else ⟨((natDigitsAux n n).map digitChar).reverse⟩

/-- Decimal rendering of an integer, with a leading `-` when negative. -/
def formatInt (x : Int) : Str :=
  if x < 0 then "-" ++ formatNat x.natAbs else formatNat x.natAbs

/-- Numeric value of a big-endian digit-character list. -/
def decVal (cs : List Char) : Nat :=
  cs.foldl (fun acc c => acc * 10 + (c.toNat - 48)) 0

/-- Models `strconv.ParseUint(s, 10, 64)`: no sign prefix, at least one
decimal digit, nothing else; values above `2^64 - 1` are a range error
(surfaced by the repository as its overflow condition). -/
def goParseUint64 (s : Str) : Except ZErr Nat :=
  if s.data = [] ∨ ¬ s.data.all Char.isDigit then .error .parseErr
  else if decVal s.data < 2 ^ 64 then .ok (decVal s.data)
  else .error .overflow

/-- Models `strconv.ParseInt(s, 10, 64)`: one optional `+`/`-` sign, then
at least one decimal digit; range `[-2^63, 2^63 - 1]`.  (The empty string
falls through to the no-digits syntax error.) -/
def goParseInt64 (s : Str) : Except ZErr Int :=
  let digits :=
    if s.data.head? = some '-' ∨ s.data.head? = some '+' then s.data.tail else s.data
  if digits = [] ∨ ¬ digits.all Char.isDigit then .error .parseErr
  else
    let x : Int :=
      if s.data.head? = some '-' then -(decVal digits : Int) else (decVal digits : Int)
    if -(2 ^ 63) ≤ x ∧ x ≤ 2 ^ 63 - 1 then .ok x
    else .error .overflow

/-- The source's `parseInt[T]`: parse through the 64-bit signed
intermediate, then range-check against the declared bounds of the kinds
`int`, `int8`, `int16`, `int32` (`int64` and every other kind that
reaches this function fall into the checkless `default`), and finally
narrow with `T(parsed)` — a wrapping conversion. -/
def parseInt (k : NumKind) (data : Str) : Except ZErr Int :=
  match goParseInt64 data with
  | .error e => .error e
  | .ok parsed =>
    match k with
    | .int =>
      if parsed > 2 ^ 63 - 1 ∨ parsed < -(2 ^ 63) then .error .overflow
      else .ok (k.wrap parsed)
    | .int8 =>
      if parsed > 127 ∨ parsed < -128 then .error .overflow
      else .ok (k.wrap parsed)
    | .int16 =>
      if parsed > 32767 ∨ parsed < -32768 then .error .overflow
      else .ok (k.wrap parsed)
    | .int32 =>
      if parsed > 2147483647 ∨ parsed < -2147483648 then .error .overflow
      else .ok (k.wrap parsed)
    | _ => .ok (k.wrap parsed)

/-- The source's `parseUint[T]`: parse through the 64-bit unsigned
intermediate, then range-check against the bounds of `uint`, `uint8`,
`uint16`, `uint32` (`uint64` falls into the checkless `default`), then
narrow with `T(parsed)`. -/
def parseUint (k : NumKind) (data : Str) : Except ZErr Int :=
  match goParseUint64 data with
  | .error e => .error e
  | .ok parsed =>
    match k with
    | .uint =>
      if (parsed : Int) > 2 ^ 64 - 1 then .error .overflow
      else .ok (k.wrap parsed)
    | .uint8 =>
      if (parsed : Int) > 255 then .error .overflow
      else .ok (k.wrap parsed)
    | .uint16 =>
      if (parsed : Int) > 65535 then .error .overflow
      else .ok (k.wrap parsed)
    | .uint32 =>
      if (parsed : Int) > 4294967295 then .error .overflow
      else .ok (k.wrap parsed)
    | _ => .ok (k.wrap parsed)

/-- `String` (the `fmt.Stringer` method) for integer kinds: `"<NULL>"`
when invalid, otherwise `fmt.Sprintf("%v", value)`, i.e. the decimal
rendering. -/
def Numeric.StringRepr (n : Numeric k) : Str :=
  if !n.valid then "<NULL>" else formatInt n.value

/-- `MarshalText`: the `String()` rendering for a valid value, the `nil`
byte slice (here `none`) for null. -/
def Numeric.MarshalText (n : Numeric k) : Option Str :=
  if n.valid then some n.StringRepr else none

/-- `UnmarshalText`: sets `unmarshaled`; empty input clears the valid
flag (leaving the stored value untouched) and succeeds; otherwise the
payload is dispatched on the kind — `reflect.Uint, Uint8, Uint16, Uint32,
Uint64` to `parseUint`, everything else (all signed kinds and, because
`reflect.Uintptr` is missing from the case list, `uintptr`) to
`parseInt`.  A parse error is returned with no further state change; on
success the value is stored and the flag set. -/
def Numeric.UnmarshalText (n : Numeric k) (data : Str) : Numeric k × Option ZErr :=
  let m : Numeric k := { n with unmarshaled := true }
  if data = "" then ({ m with valid := false }, none)
  else
    match (if k.usesUintParse then parseUint k data else parseInt k data) with
    | .error e => (m, some e)
    | .ok v => ({ m with value := v, valid := true }, none)

/-- Models `encoding/json`'s unmarshaling of a numeric literal into the
integer kind `k`: the literal text is parsed with the 64-bit wide
`strconv` routine of `k`'s signedness (`encoding/json` places `uintptr`
with the unsigned kinds) and checked against `k`'s exact range. -/
def jsonDecodeInt (k : NumKind) (s : Str) : Except ZErr Int :=
  if k.signed then
    match goParseInt64 s with
    | .error e => .error e
    | .ok v => if k.minVal ≤ v ∧ v ≤ k.maxVal then .ok v else .error .overflow
  else
    match goParseUint64 s with
    | .error e => .error e
    | .ok v => if (v : Int) ≤ k.maxVal then .ok v else .error .overflow

/-- `MarshalJSON`: `json.Marshal` of the stored value (its decimal
literal) when valid, the literal `null` otherwise. -/
def Numeric.MarshalJSON (n : Numeric k) : Str :=
  if n.valid then formatInt n.value else "null"

/-- `UnmarshalJSON`: sets `unmarshaled`; the literal `null` zeroes the
value and clears the flag; a decode error clears the valid flag but
leaves the stored value untouched; success stores the value. -/
def Numeric.UnmarshalJSON (n : Numeric k) (data : Str) : Numeric k × Option ZErr :=
  let m : Numeric k := { n with unmarshaled := true }
  if data = "null" then ({ m with valid := false, value := 0 }, none)
  else
    match jsonDecodeInt k data with
    | .error e => ({ m with valid := false }, some e)
    | .ok v => ({ m with valid := true, value := v }, none)

/-- Dynamically typed inputs of the scan bridge, restricted to the shapes
the verified properties need: SQL `NULL`, a signed 64-bit integer, a
string, and a representative of every other (unconvertible) type. -/
inductive ScanVal
  | null
  | i64 (x : Int)
  | str (s : Str)
  | other
  deriving DecidableEq, Repr

/-- Modelled from the spec and the repository's tests: `Numeric.Scan`
delegates to `database/sql`'s `Null[T].Scan` (outside `src/`), which on
`nil` zeroes the value and clears the valid flag, converts an `int64`
that fits the kind's range, and otherwise reports a conversion failure,
leaving the valid flag false and the stored value untouched. -/
def Numeric.Scan (n : Numeric k) (v : ScanVal) : Numeric k × Option ZErr :=
  match v with
  | .null => ({ n with value := 0, valid := false }, none)
  | .i64 x =>
    if k.minVal ≤ x ∧ x ≤ k.maxVal then ({ n with value := x, valid := true }, none)
    else ({ n with valid := false }, some .overflow)
  | _ => ({ n with valid := false }, some .unsupportedType)

/-- The driver primitives the storage bridge accepts in the verified
properties: a signed 64-bit integer and a 64-bit float (whose numeric
value is embedded as a rational). -/
inductive DriverVal
  | i64 (x : Int)
  | f64 (q : ℚ)
  deriving DecidableEq, Repr

/-- Modelled from the spec and the repository's tests: `Numeric.Value`
delegates to `database/sql`'s `Null[T].Value` (outside `src/`), which
returns a `nil` driver value when invalid and otherwise downcasts every
integer kind to a signed 64-bit integer. -/
def Numeric.Value (n : Numeric k) : Option DriverVal :=
  if n.valid then some (.i64 (NumKind.int64.wrap n.value)) else none

/-- The `Duration` wrapper of `time.go`: a plain `{value, valid,
unmarshaled}` triple whose value is a `time.Duration`, i.e. a signed
64-bit nanosecond count, embedded as `Int`. -/
structure Duration where
  value : Int
  valid : Bool
  unmarshaled : Bool
  deriving DecidableEq, Repr

/-- `NewDuration`: a valid duration. -/
def NewDuration (value : Int) : Duration :=
  ⟨value, true, false⟩

/-- `NewNullDuration`: a null duration. -/
def NewNullDuration : Duration :=
  ⟨0, false, false⟩

/-- `Duration.EqualRaw`: `d.valid && d.value == other` — unlike the
numeric wrapper, the valid flag is part of the comparison. -/
def Duration.EqualRaw (d : Duration) (other : Int) : Bool :=
  d.valid && d.value == other

/-- One component of Go's compact duration grammar: a digit run followed
by a unit suffix, yielding nanoseconds.  Modelled from the standard
library's `time.ParseDuration` (outside `src/`), restricted to
integer-valued components (fractions omitted; no verified property
depends on them). -/
def durUnitNs : Str → Option Int
  | "ns" => some 1
  | "us" => some 1000
  | "ms" => some 1000000
  | "s" => some 1000000000
  | "m" => some 60000000000
  | "h" => some 3600000000000
  | _ => none

/-- Split a leading digit run off a character list. -/
def takeDigits : List Char → List Char × List Char
  | [] => ([], [])
  | c :: rest =>
    if c.isDigit then
      let (ds, tail) := takeDigits rest
      (c :: ds, tail)
    else ([], c :: rest)

/-- Parse the `(number unit)+` tail of a duration string, with fuel. -/
def parseDurComps : Nat → List Char → Option Int
  | 0, _ => none
  | _ + 1, [] => some 0
  | fuel + 1, cs =>
    let (ds, rest) := takeDigits cs
    if ds = [] then none
    else
      let (unit, rest2) :=
        match rest with
        | u1 :: u2 :: tail =>
          if (durUnitNs ⟨[u1, u2]⟩).isSome then (([u1, u2] : List Char), tail)
          else ([u1], u2 :: tail)
        | u1 :: tail => ([u1], tail)
        | [] => ([], [])
      match durUnitNs ⟨unit⟩ with
      | none => none
      | some mult =>
        match parseDurComps fuel rest2 with
        | none => none
        | some acc => some ((decVal ds : Int) * mult + acc)

/-- Modelled from the standard library's `time.ParseDuration` (outside
`src/`): an optional sign, then either the bare string `"0"` or a
sequence of integer components with unit suffixes. -/
def parseDuration (s : Str) : Option Int :=
  let (neg, cs) :=
    match s.data with
    | '-' :: rest => (true, rest)
    | '+' :: rest => (false, rest)
    | cs => (false, cs)
  if cs = [] then none
  else if cs = ['0'] then some 0
  else
    match parseDurComps (cs.length + 1) cs with
    | none => none
    | some v => some (if neg then -v else v)

/-- `Duration.Scan`: `nil` zeroes the value and clears the valid flag; an
`int64` is stored as nanoseconds; a string goes through the duration
grammar, whose failure is returned with no state change; any other input
type is the unsupported-type failure, also with no state change. -/
def Duration.Scan (d : Duration) (v : ScanVal) : Duration × Option ZErr :=
  match v with
  | .null => ({ d with value := 0, valid := false }, none)
  | .i64 x => ({ d with value := x, valid := true }, none)
  | .str s =>
    match parseDuration s with
    | none => (d, some .parseErr)
    | some dur => ({ d with value := dur, valid := true }, none)
  | .other => (d, some .unsupportedType)

/-- `Duration.Value`: `nil` when invalid, else the nanosecond count as a
signed 64-bit integer. -/
def Duration.Value (d : Duration) : Option DriverVal :=
  if !d.valid then none else some (.i64 d.value)

/-- The `Time` wrapper of `time.go`, as far as `EqualRaw` needs it: the
`time.Time` instant is embedded as its nanosecond offset from the epoch
(`time.Time.Equal` compares exactly that instant). -/
structure Time where
  value : Int
  valid : Bool
  unmarshaled : Bool
  deriving DecidableEq, Repr

/-- `NewNullTime`: a null instant. -/
def NewNullTime : Time :=
  ⟨0, false, false⟩

/-- `Time.EqualRaw`: `t.value.Valid && t.value.Time.Equal(other)` — like
`Duration.EqualRaw`, the valid flag is part of the comparison. -/
def Time.EqualRaw (t : Time) (other : Int) : Bool :=
  t.valid && t.value == other

/-- The `String` wrapper of the source (renamed: Lean already has a
`String`), as far as `EqualRaw` needs it. -/
structure ZString where
  value : Str
  valid : Bool
  unmarshaled : Bool
  deriving DecidableEq, Repr

/-- `NewNullString`: a null string wrapper. -/
def NewNullZString : ZString :=
  ⟨"", false, false⟩

/-- `String.EqualRaw`: `s.value.String == other` — the valid flag is not
consulted. -/
def ZString.EqualRaw (s : ZString) (other : Str) : Bool :=
  s.value == other

/-- The `Byte` wrapper of `byte.go`, as far as `EqualRaw` needs it. -/
structure Byte where
  value : Int
  valid : Bool
  unmarshaled : Bool
  deriving DecidableEq, Repr

/-- `NewNullByte`: a null byte wrapper. -/
def NewNullByte : Byte :=
  ⟨0, false, false⟩

/-- `Byte.EqualRaw`: `b.value.Byte == other` — the valid flag is not
consulted. -/
def Byte.EqualRaw (b : Byte) (other : Int) : Bool :=
  b.value == other

/-- The float instantiations `Numeric[float32]`/`Numeric[float64]`, with
the numeric value of the float embedded as a rational.  The verified
properties about this model concern only its decimal text codec and the
storage bridge, where the embedding is exact. -/
structure NumericF where
  value : ℚ
  valid : Bool
  unmarshaled : Bool
  deriving DecidableEq, Repr

/-- `NewNumber` at a float kind. -/
def NewNumberF (value : ℚ) : NumericF :=
  ⟨value, true, false⟩

/-- Left-pad a digit string with zeros to width 6. -/
def zeroPad6 (s : Str) : Str :=
  ⟨List.replicate (6 - s.data.length) '0' ++ s.data⟩

/-- Models `fmt.Sprintf("%f", v)` on the value of the float: fixed-point
decimal with exactly six fractional digits, the value rounded to the
nearest multiple of `10⁻⁶`. -/
def formatFixed6 (q : ℚ) : Str :=
  let scaled : Int := round (q * 1000000)
  let sign : Str := if scaled < 0 then "-" else ""
  sign ++ formatNat (scaled.natAbs / 1000000) ++ "." ++
    zeroPad6 (formatNat (scaled.natAbs % 1000000))

/-- Character-level half of the float parse: sign, integer-part value,
fraction-part value and fraction length of a fixed-point decimal
literal. -/
def floatParts (s : Str) : Option (Bool × Nat × Nat × Nat) :=
  let (neg, cs) :=
    match s.data with
    | '-' :: rest => (true, rest)
    | '+' :: rest => (false, rest)
    | cs => (false, cs)
  let (ip, rest) := takeDigits cs
  match rest with
  | [] =>
    if ip = [] then none
    else some (neg, decVal ip, 0, 0)
  | '.' :: frac =>
    if ¬ frac.all Char.isDigit ∨ (ip = [] ∧ frac = []) then none
    else some (neg, decVal ip, decVal frac, frac.length)
  | _ => none

/-- Models `strconv.ParseFloat` on the fixed-point decimal strings the
codec emits, returning the exact rational value of the literal. -/
def goParseFloat (s : Str) : Option ℚ :=
  (floatParts s).map fun p =>
    (if p.1 then -1 else 1) * ((p.2.1 : ℚ) + (p.2.2.1 : ℚ) / (10 : ℚ) ^ p.2.2.2)

/-- `String` (the `fmt.Stringer` method) at a float kind: `"<NULL>"`
when invalid, otherwise `fmt.Sprintf("%f", value)`. -/
def NumericF.StringRepr (n : NumericF) : Str :=
  if !n.valid then "<NULL>" else formatFixed6 n.value

/-- `MarshalText` at a float kind. -/
def NumericF.MarshalText (n : NumericF) : Option Str :=
  if n.valid then some n.StringRepr else none

/-- `UnmarshalText` at a float kind: empty input clears the valid flag;
otherwise the payload goes through the 64-bit float parse (`parseFloat`
of the source, whose `float32` overflow check cannot fire on the codec's
own output), failure being returned with no further state change. -/
def NumericF.UnmarshalText (n : NumericF) (data : Str) : NumericF × Option ZErr :=
  let m : NumericF := { n with unmarshaled := true }
  if data = "" then ({ m with valid := false }, none)
  else
    match goParseFloat data with
    | none => (m, some .parseErr)
    | some v => ({ m with value := v, valid := true }, none)

/-- `Scan` at a float kind (delegating to `database/sql`, modelled from
the spec): `nil` zeroes the value and clears the valid flag. -/
def NumericF.Scan (n : NumericF) (v : ScanVal) : NumericF × Option ZErr :=
  match v with
  | .null => ({ n with value := 0, valid := false }, none)
  | _ => ({ n with valid := false }, some .unsupportedType)

/-- `Value` at a float kind (modelled from the spec): `nil` when invalid,
otherwise the 64-bit float. -/
def NumericF.Value (n : NumericF) : Option DriverVal :=
  if n.valid then some (.f64 n.value) else none

/-- Value of a little-endian digit list. -/
def valLE (ds : List Nat) : Nat :=
  ds.foldr (fun d acc => d + 10 * acc) 0

theorem valLE_nil : valLE [] = 0 := rfl

theorem valLE_cons (a : Nat) (l : List Nat) : valLE (a :: l) = a + 10 * valLE l := rfl

theorem digitChar_facts : ∀ d < 10, (digitChar d).isDigit = true ∧ (digitChar d).toNat - 48 = d := by
  decide

theorem natDigitsAux_spec :
    ∀ fuel n, n ≤ fuel →
      valLE (natDigitsAux fuel n) = n ∧ ∀ d ∈ natDigitsAux fuel n, d < 10 := by
  intro fuel
  induction fuel with
  | zero =>
    intro n hn
    have : n = 0 := Nat.le_zero.mp hn
    subst this
    exact ⟨rfl, by simp [natDigitsAux]⟩
  | succ fuel ih =>
    intro n hn
    match n with
    | 0 => exact ⟨rfl, by simp [natDigitsAux]⟩
    | m + 1 =>
      have hdiv : (m + 1) / 10 ≤ fuel := by
        have := Nat.div_lt_self (Nat.succ_pos m) (by norm_num : 1 < 10)
        omega
      obtain ⟨h1, h2⟩ := ih ((m + 1) / 10) hdiv
      refine ⟨?_, ?_⟩
      · rw [natDigitsAux, valLE_cons, h1]
        omega
      · intro d hd
        rw [natDigitsAux, List.mem_cons] at hd
        rcases hd with rfl | hd
        · exact Nat.mod_lt _ (by norm_num)
        · exact h2 d hd

theorem natDigitsAux_ne_nil (m : Nat) : natDigitsAux (m + 1) (m + 1) ≠ [] := by
  rw [natDigitsAux]
  exact List.cons_ne_nil _ _

theorem foldl_digits (ds : List Nat) (h : ∀ d ∈ ds, d < 10) :
    ∀ a : Nat,
      List.foldl (fun acc c => acc * 10 + (c.toNat - 48)) a ((ds.map digitChar).reverse)
        = a * 10 ^ ds.length + valLE ds := by
  induction ds with
  | nil => intro a; simp [valLE_nil]
  | cons d tl ih =>
    intro a
    have hd : d < 10 := h d (List.mem_cons_self _ _)
    have htl : ∀ x ∈ tl, x < 10 := fun x hx => h x (List.mem_cons_of_mem _ hx)
    rw [List.map_cons, List.reverse_cons, List.foldl_append, ih htl a]
    simp only [List.foldl_cons, List.foldl_nil, List.length_cons, valLE_cons]
    rw [(digitChar_facts d hd).2]
    ring

theorem formatNat_data_pos (n : Nat) (h : 0 < n) :
    (formatNat n).data = ((natDigitsAux n n).map digitChar).reverse := by
  rw [formatNat, if_neg (Nat.pos_iff_ne_zero.mp h)]

theorem formatNat_ne_nil (n : Nat) : (formatNat n).data ≠ [] := by
  match n with
  | 0 => decide
  | m + 1 =>
    rw [formatNat_data_pos _ (Nat.succ_pos m)]
    simp [natDigitsAux_ne_nil m]

theorem formatNat_all_digits (n : Nat) : (formatNat n).data.all Char.isDigit = true := by
  match n with
  | 0 => decide
  | m + 1 =>
    rw [formatNat_data_pos _ (Nat.succ_pos m), List.all_eq_true]
    intro c hc
    rw [List.mem_reverse, List.mem_map] at hc
    obtain ⟨d, hd, rfl⟩ := hc
    exact (digitChar_facts d ((natDigitsAux_spec _ _ le_rfl).2 d hd)).1

theorem decVal_formatNat (n : Nat) : decVal (formatNat n).data = n := by
  match n with
  | 0 => decide
  | m + 1 =>
    rw [formatNat_data_pos _ (Nat.succ_pos m)]
    obtain ⟨h1, h2⟩ := natDigitsAux_spec (m + 1) (m + 1) le_rfl
    rw [decVal, foldl_digits _ h2 0, h1, Nat.zero_mul, Nat.zero_add]

theorem goParseUint64_format (n : Nat) (h : n < 2 ^ 64) :
    goParseUint64 (formatNat n) = .ok n := by
  rw [goParseUint64, if_neg, decVal_formatNat, if_pos h]
  push_neg
  exact ⟨formatNat_ne_nil n, by simp [formatNat_all_digits n]⟩

theorem str_data_append (a b : Str) : (a ++ b).data = a.data ++ b.data := rfl

theorem goParseInt64_of_digits (s : Str) (hne : s.data ≠ [])
    (hall : s.data.all Char.isDigit = true)
    (hrange : (decVal s.data : Int) ≤ 2 ^ 63 - 1) :
    goParseInt64 s = .ok (decVal s.data) := by
  have hhead : ∀ c : Char, s.data.head? = some c → c.isDigit = true := by
    intro c hc
    cases hs : s.data with
    | nil => rw [hs] at hc; exact absurd hc (by simp)
    | cons a l =>
      rw [hs] at hc hall
      rw [List.head?_cons, Option.some.injEq] at hc
      rw [List.all_cons, Bool.and_eq_true] at hall
      exact hc ▸ hall.1
  have hneg : ¬ s.data.head? = some '-' := fun h => by
    have := hhead _ h; exact absurd this (by decide)
  have hplus : ¬ s.data.head? = some '+' := fun h => by
    have := hhead _ h; exact absurd this (by decide)
  simp only [goParseInt64]
  rw [if_neg (show ¬ (s.data.head? = some '-' ∨ s.data.head? = some '+') by tauto)]
  rw [if_neg (by push_neg; exact ⟨hne, by simp [hall]⟩)]
  rw [if_neg hneg]
  rw [if_pos ⟨by omega, hrange⟩]

theorem goParseInt64_format (x : Int) (h1 : -(2 ^ 63) ≤ x) (h2 : x ≤ 2 ^ 63 - 1) :
    goParseInt64 (formatInt x) = .ok x := by
  by_cases hx : x < 0
  · rw [formatInt, if_pos hx]
    have hdata : ("-" ++ formatNat x.natAbs).data = '-' :: (formatNat x.natAbs).data :=
      str_data_append "-" (formatNat x.natAbs)
    simp only [goParseInt64, hdata, List.head?_cons, List.tail_cons, Option.some.injEq,
      true_or, if_true]
    rw [if_neg (by push_neg; exact ⟨formatNat_ne_nil _, by simp [formatNat_all_digits]⟩)]
    rw [decVal_formatNat]
    rw [if_pos ⟨by omega, by omega⟩]
    congr 1
    omega
  · push_neg at hx
    rw [formatInt, if_neg (by omega)]
    have hd : (decVal (formatNat x.natAbs).data : Int) = x := by
      rw [decVal_formatNat]; omega
    rw [goParseInt64_of_digits _ (formatNat_ne_nil _) (formatNat_all_digits _) (by omega), hd]

theorem wrap_eq_self (k : NumKind) (v : Int) (h1 : k.minVal ≤ v) (h2 : v ≤ k.maxVal) :
    k.wrap v = v := by
  cases k <;>
    (simp only [NumKind.wrap, NumKind.signed, NumKind.bits, NumKind.minVal,
      NumKind.maxVal, if_true, if_false, reduceIte] at h1 h2 ⊢) <;>
    norm_num at h1 h2 ⊢ <;>
    omega

theorem parseInt_format (k : NumKind) (x : Int) (h1 : k.minVal ≤ x) (h2 : x ≤ k.maxVal)
    (hlo : -(2 ^ 63) ≤ x) (hhi : x ≤ 2 ^ 63 - 1) :
    parseInt k (formatInt x) = .ok x := by
  have hw := wrap_eq_self k x h1 h2
  cases k <;>
    (norm_num [NumKind.minVal, NumKind.maxVal, NumKind.signed, NumKind.bits] at h1 h2;
     simp only [parseInt, goParseInt64_format x hlo hhi, hw]) <;>
    rw [if_neg (by omega)]

theorem parseUint_format (k : NumKind) (x : Int) (hk : k.signed = false)
    (h1 : 0 ≤ x) (h2 : x ≤ k.maxVal) :
    parseUint k (formatInt x) = .ok x := by
  have h0 : k.minVal ≤ x := by rw [NumKind.minVal, hk]; simpa using h1
  have hw := wrap_eq_self k x h0 h2
  have hmax : k.maxVal ≤ 2 ^ 64 - 1 := by
    cases k <;> norm_num [NumKind.maxVal, NumKind.signed, NumKind.bits]
  have hna : x.natAbs < 2 ^ 64 := by omega
  have hcast : (x.natAbs : Int) = x := by omega
  rw [formatInt, if_neg (by omega)]
  cases k <;>
    first
    | exact absurd hk (by decide)
    | (norm_num [NumKind.maxVal, NumKind.signed, NumKind.bits] at h2;
       simp only [parseUint, goParseUint64_format x.natAbs hna, hcast, hw];
       try rw [if_neg (by omega)])

theorem formatInt_ne_empty (x : Int) : formatInt x ≠ "" := by
  rw [formatInt]
  split
  · intro h
    have hd := congrArg String.data h
    rw [str_data_append] at hd
    exact List.cons_ne_nil _ _ hd
  · intro h
    exact formatNat_ne_nil _ (congrArg String.data h)

theorem formatInt_ne_null (x : Int) : formatInt x ≠ "null" := by
  rw [formatInt]
  split
  · intro h
    have hd := congrArg String.data h
    rw [str_data_append] at hd
    rw [show ("null" : Str).data = ['n', 'u', 'l', 'l'] from rfl] at hd
    exact absurd (List.head_eq_of_cons_eq hd) (by decide)
  · intro h
    have hall := formatNat_all_digits x.natAbs
    rw [h] at hall
    exact absurd hall (by decide)

theorem numKind_minVal_lb (k : NumKind) : -(2 ^ 63) ≤ k.minVal := by
  cases k <;> norm_num [NumKind.minVal, NumKind.signed, NumKind.bits]

theorem unmarshalText_format (k : NumKind) (v : Int) (m : Numeric k)
    (h1 : k.minVal ≤ v) (h2 : v ≤ k.maxVal) (h3 : k = .uintptr → v ≤ 2 ^ 63 - 1) :
    m.UnmarshalText (formatInt v) = (⟨v, true, true⟩, none) := by
  have hexpr :
      (if k.usesUintParse then parseUint k (formatInt v) else parseInt k (formatInt v))
        = .ok v := by
    by_cases hk : k.usesUintParse = true
    · have hs : k.signed = false := by
        cases k <;> simp_all [NumKind.usesUintParse, NumKind.signed]
      have h0 : (0 : Int) ≤ v := by
        rw [NumKind.minVal, hs] at h1; simpa using h1
      rw [if_pos hk, parseUint_format k v hs h0 h2]
    · have hhi : v ≤ 2 ^ 63 - 1 := by
        cases k <;>
          first
          | exact h3 rfl
          | exact absurd (by decide) hk
          | (norm_num [NumKind.maxVal, NumKind.signed, NumKind.bits] at h2; omega)
      have hlo : -(2 ^ 63) ≤ v := le_trans (numKind_minVal_lb k) h1
      rw [if_neg hk, parseInt_format k v h1 h2 hlo hhi]
  simp only [Numeric.UnmarshalText, if_neg (formatInt_ne_empty v), hexpr]

theorem jsonDecodeInt_format (k : NumKind) (v : Int) (h1 : k.minVal ≤ v)
    (h2 : v ≤ k.maxVal) :
    jsonDecodeInt k (formatInt v) = .ok v := by
  by_cases hs : k.signed = true
  · have hhi : v ≤ 2 ^ 63 - 1 := by
      cases k <;>
        first
        | exact absurd hs (by decide)
        | (norm_num [NumKind.maxVal, NumKind.signed, NumKind.bits] at h2; omega)
    have hlo : -(2 ^ 63) ≤ v := le_trans (numKind_minVal_lb k) h1
    simp only [jsonDecodeInt, hs, if_true, goParseInt64_format v hlo hhi]
    rw [if_pos ⟨h1, h2⟩]
  · have hs' : k.signed = false := by simpa using hs
    have h0 : (0 : Int) ≤ v := by
      rw [NumKind.minVal, hs'] at h1; simpa using h1
    have hmax : k.maxVal ≤ 2 ^ 64 - 1 := by
      cases k <;> norm_num [NumKind.maxVal, NumKind.signed, NumKind.bits]
    have hna : v.natAbs < 2 ^ 64 := by omega
    have hcast : (v.natAbs : Int) = v := by omega
    rw [formatInt, if_neg (by omega)]
    simp only [jsonDecodeInt, hs', Bool.false_eq_true, if_false,
      goParseUint64_format v.natAbs hna, hcast]
    rw [if_pos (by omega)]

theorem unmarshalJSON_format (k : NumKind) (v : Int) (m : Numeric k)
    (h1 : k.minVal ≤ v) (h2 : v ≤ k.maxVal) :
    m.UnmarshalJSON (formatInt v) = (⟨v, true, true⟩, none) := by
  simp only [Numeric.UnmarshalJSON, if_neg (formatInt_ne_null v),
    jsonDecodeInt_format k v h1 h2]

theorem unmarshalText_eq (n : Numeric k) (s : Str) (hs : ¬ s = "") :
    n.UnmarshalText s =
      match (if k.usesUintParse then parseUint k s else parseInt k s) with
      | .error e => ({ n with unmarshaled := true }, some e)
      | .ok v => ({ n with value := v, valid := true, unmarshaled := true }, none) := by
  simp only [Numeric.UnmarshalText, if_neg hs]

theorem unmarshalJSON_eq (n : Numeric k) (s : Str) (hs : ¬ s = "null") :
    n.UnmarshalJSON s =
      match jsonDecodeInt k s with
      | .error e => ({ n with valid := false, unmarshaled := true }, some e)
      | .ok v => ({ n with value := v, valid := true, unmarshaled := true }, none) := by
  simp only [Numeric.UnmarshalJSON, if_neg hs]

/-- The states of a `Numeric` wrapper reachable through the constructors,
`Set`, `SetNull`, non-empty text decodes, tagged-literal decodes of the
null marker or of successfully parsed payloads, and `Scan` of `nil` or of
successfully converted inputs.  (The operations left out — the text
decode of an empty payload, a failed tagged-literal decode, a failed
scan conversion — are exactly the ones that clear or keep the valid flag
while leaving a previously stored value in place.) -/
inductive ReachInv (k : NumKind) : Numeric k → Prop
  | newNumber (v : Int) : ReachInv k (NewNumber k v)
  | newNullNumber : ReachInv k (NewNullNumber k)
  | set (n : Numeric k) (v : Int) : ReachInv k n → ReachInv k (n.Set v)
  | setNull (n : Numeric k) : ReachInv k n → ReachInv k n.SetNull
  | unmarshalText (n : Numeric k) (s : Str) : ReachInv k n → ¬ s = "" →
      ReachInv k (n.UnmarshalText s).1
  | unmarshalJSON (n : Numeric k) (s : Str) : ReachInv k n →
      (s = "null" ∨ (n.UnmarshalJSON s).2 = none) →
      ReachInv k (n.UnmarshalJSON s).1
  | scan (n : Numeric k) (v : ScanVal) : ReachInv k n →
      (v = .null ∨ (n.Scan v).2 = none) →
      ReachInv k (n.Scan v).1

/-- C1 (counterexample): the claimed invariant `valid = false → value =
zero` is violated by a reachable two-step sequence — `NewNumber 42`
followed by `UnmarshalText` of the empty payload leaves `valid = false`
with the stale value 42 still stored. -/
theorem c1_counterexample :
    ((NewNumber .int8 42).UnmarshalText "").1.valid = false ∧
    ((NewNumber .int8 42).UnmarshalText "").1.value = 42 ∧ (42 : Int) ≠ 0 := by
  decide

/-- C1 (amended): `valid = false` implies `value = 0` for every state
reachable through the constructors, `Set`, `SetNull`, non-empty text
decodes, tagged-literal decodes of the null marker or of successfully
parsed payloads, and `Scan` of `nil` or of successfully converted inputs;
the text decode of an empty payload (and any failed decode or scan) can
instead leave stale residue behind. -/
theorem c1_null_state_zero_invariant (k : NumKind) (n : Numeric k)
    (h : ReachInv k n) : n.valid = false → n.value = 0 := by
  induction h with
  | newNumber v => exact fun hv => Bool.noConfusion hv
  | newNullNumber => exact fun _ => rfl
  | set n v _ _ => exact fun hv => Bool.noConfusion hv
  | setNull n _ _ => exact fun _ => rfl
  | unmarshalText n s _ hs ih =>
    intro hv
    rw [unmarshalText_eq n s hs] at hv ⊢
    cases hp : (if k.usesUintParse then parseUint k s else parseInt k s) with
    | error e =>
      simp only [hp] at hv ⊢
      exact ih hv
    | ok v =>
      simp only [hp] at hv
      exact Bool.noConfusion hv
  | unmarshalJSON n s _ hcond ih =>
    intro hv
    by_cases hs : s = "null"
    · subst hs
      simp [Numeric.UnmarshalJSON]
    · rw [unmarshalJSON_eq n s hs] at hv ⊢
      cases hp : jsonDecodeInt k s with
      | error e =>
        rcases hcond with hcond | hcond
        · exact absurd hcond hs
        · rw [unmarshalJSON_eq n s hs, hp] at hcond
          exact Option.noConfusion hcond
      | ok v =>
        simp only [hp] at hv
        exact Bool.noConfusion hv
  | scan n v _ hcond ih =>
    intro hv
    cases v with
    | null => rfl
    | i64 x =>
      rw [Numeric.Scan] at hv ⊢
      by_cases hr : k.minVal ≤ x ∧ x ≤ k.maxVal
      · simp only [if_pos hr] at hv
        exact Bool.noConfusion hv
      · rcases hcond with hcond | hcond
        · exact ScanVal.noConfusion hcond
        · rw [Numeric.Scan, if_neg hr] at hcond
          exact Option.noConfusion hcond
    | str s =>
      rcases hcond with hcond | hcond
      · exact ScanVal.noConfusion hcond
      · exact Option.noConfusion hcond
    | other =>
      rcases hcond with hcond | hcond
      · exact ScanVal.noConfusion hcond
      · exact Option.noConfusion hcond

theorem c1_null_state_zero_invariant_witness :
    (NewNullNumber .int8).valid = false ∧ (NewNullNumber .int8).value = 0 :=
  ⟨rfl, c1_null_state_zero_invariant .int8 (NewNullNumber .int8)
    ReachInv.newNullNumber rfl⟩

/-- C2 (counterexample): a text decode parse failure is surfaced, but a
previously valid wrapper stays `valid = true` afterwards — the claim that
the valid flag is false after every failed decode is wrong. -/
theorem c2_counterexample :
    ((NewNumber .int8 42).UnmarshalText "abc").2 = some .parseErr ∧
    ((NewNumber .int8 42).UnmarshalText "abc").1.valid = true := by
  decide

/-- C2 (amended): every decode/scan failure is surfaced to the caller and
never partially mutates the stored value; a tagged-literal decode failure
and a scan conversion failure leave `valid = false`, but a text decode
parse failure (and any failed `Duration.Scan`) leaves the wrapper's
previous state — including a previously true valid flag — unchanged. -/
theorem c2_failure_state_effects :
    (∀ (k : NumKind) (n : Numeric k) (s : Str) (e : ZErr),
       (n.UnmarshalText s).2 = some e →
       (n.UnmarshalText s).1.value = n.value ∧ (n.UnmarshalText s).1.valid = n.valid) ∧
    (∀ (k : NumKind) (n : Numeric k) (s : Str) (e : ZErr),
       (n.UnmarshalJSON s).2 = some e →
       (n.UnmarshalJSON s).1.value = n.value ∧ (n.UnmarshalJSON s).1.valid = false) ∧
    (∀ (k : NumKind) (n : Numeric k) (v : ScanVal) (e : ZErr),
       (n.Scan v).2 = some e →
       (n.Scan v).1.value = n.value ∧ (n.Scan v).1.valid = false) ∧
    (∀ (d : Duration) (v : ScanVal) (e : ZErr),
       (d.Scan v).2 = some e → (d.Scan v).1 = d) := by
  refine ⟨?_, ?_, ?_, ?_⟩
  · intro k n s e he
    by_cases hs : s = ""
    · subst hs
      rw [Numeric.UnmarshalText, if_pos rfl] at he
      exact Option.noConfusion he
    · rw [unmarshalText_eq n s hs] at he ⊢
      cases hp : (if k.usesUintParse then parseUint k s else parseInt k s) with
      | error e2 => simp only [hp]; trivial
      | ok v =>
        rw [hp] at he
        exact Option.noConfusion he
  · intro k n s e he
    by_cases hs : s = "null"
    · subst hs
      rw [Numeric.UnmarshalJSON, if_pos rfl] at he
      exact Option.noConfusion he
    · rw [unmarshalJSON_eq n s hs] at he ⊢
      cases hp : jsonDecodeInt k s with
      | error e2 => simp only [hp]; trivial
      | ok v =>
        rw [hp] at he
        exact Option.noConfusion he
  · intro k n v e he
    cases v with
    | null => exact Option.noConfusion he
    | i64 x =>
      rw [Numeric.Scan] at he ⊢
      by_cases hr : k.minVal ≤ x ∧ x ≤ k.maxVal
      · rw [if_pos hr] at he
        exact Option.noConfusion he
      · rw [if_neg hr]
        exact ⟨rfl, rfl⟩
    | str s => exact ⟨rfl, rfl⟩
    | other => exact ⟨rfl, rfl⟩
  · intro d v e he
    cases v with
    | null => exact Option.noConfusion he
    | i64 x => exact Option.noConfusion he
    | str s =>
      rw [Duration.Scan] at he ⊢
      cases hp : parseDuration s with
      | none => simp only [hp]
      | some dur =>
        rw [hp] at he
        exact Option.noConfusion he
    | other => rfl

theorem c2_failure_state_effects_witness :
    ((NewNumber .int8 42).UnmarshalText "abc").1.value = (NewNumber .int8 42).value ∧
    ((NewNumber .int8 42).UnmarshalText "abc").1.valid = (NewNumber .int8 42).valid :=
  c2_failure_state_effects.1 .int8 (NewNumber .int8 42) "abc" .parseErr (by decide)

/-- C3: evaluation at the decisive inputs.  The int8 boundary behaves as
claimed (`"127"` decodes to 127; `"128"` is an overflow failure), and the
parse does go wide-then-range-check for the kinds listed in the two
`switch`es; but `uintptr` — an unsigned kind — is routed through the
*signed* 64-bit parser with no range check, so `"-1"` is accepted
(wrapping to `2^64 - 1`) and `"9223372036854775808"`, though representable
in 64-bit unsigned, is rejected as overflow, while the unsigned parser the
claim prescribes would reject `"-1"` and accept that payload. -/
theorem c3_parse_dispatch_evaluation :
    ((NewNullNumber .int8).UnmarshalText "127" = (⟨127, true, true⟩, none)) ∧
    ((NewNullNumber .int8).UnmarshalText "128" = (⟨0, false, true⟩, some .overflow)) ∧
    ((NewNullNumber .uintptr).UnmarshalText "-1" = (⟨2 ^ 64 - 1, true, true⟩, none)) ∧
    ((NewNullNumber .uintptr).UnmarshalText "9223372036854775808"
        = (⟨0, false, true⟩, some .overflow)) ∧
    (goParseUint64 "-1" = .error .parseErr) ∧
    (goParseUint64 "9223372036854775808" = .ok (2 ^ 63)) := by
  decide

/-- C4 (counterexample): the round trip fails in two places.  A valid
`uintptr` holding `2^63` text-encodes to its decimal rendering, but
decoding that very payload fails with overflow (it goes through the
signed 64-bit parser); and at a float kind the text encoding renders with
six fixed fractional digits, so the non-zero value `10⁻⁷` encodes to
`"0.000000"`, which decodes to 0. -/
theorem c4_counterexample :
    ((NewNumber .uintptr (2 ^ 63)).MarshalText = some "9223372036854775808" ∧
      (NewNullNumber .uintptr).UnmarshalText "9223372036854775808"
        = (⟨0, false, true⟩, some .overflow)) ∧
    ((NewNumberF (1 / 10000000)).MarshalText = some "0.000000" ∧
      (NumericF.UnmarshalText ⟨37, true, false⟩ "0.000000").1 = ⟨0, true, true⟩ ∧
      (1 / 10000000 : ℚ) ≠ 0) := by
  refine ⟨⟨by decide, by decide⟩, ?_, ?_, by norm_num⟩
  · have h : round (((NewNumberF (1 / 10000000)).value) * 1000000) = 0 := by
      norm_num [NewNumberF, round_eq]
    simp only [NumericF.MarshalText, NumericF.StringRepr, formatFixed6, h]
    decide
  · have h : floatParts "0.000000" = some (false, 0, 0, 6) := by decide
    simp [NumericF.UnmarshalText, goParseFloat, h]

/-- C4 (amended): for every integer kind `K` and every valid value `v` of
`K` — except `uintptr` values above `2^63 - 1`, whose text decode is
routed through the signed 64-bit parser and fails — decoding the text
encoding and the tagged-literal encoding of `v` yields exactly `v` with
`valid = true` and `unmarshaled = true`, whatever the prior state of the
decoding wrapper; the float kinds do not round-trip through the text
codec, whose fixed six-decimal rendering loses information. -/
theorem c4_roundtrip_integer_kinds (k : NumKind) (v : Int) (m : Numeric k)
    (h1 : k.minVal ≤ v) (h2 : v ≤ k.maxVal) (h3 : k = .uintptr → v ≤ 2 ^ 63 - 1) :
    ((NewNumber k v).MarshalText = some (formatInt v) ∧
      m.UnmarshalText (formatInt v) = (⟨v, true, true⟩, none)) ∧
    ((NewNumber k v).MarshalJSON = formatInt v ∧
      m.UnmarshalJSON (formatInt v) = (⟨v, true, true⟩, none)) := by
  refine ⟨⟨?_, unmarshalText_format k v m h1 h2 h3⟩,
    ⟨?_, unmarshalJSON_format k v m h1 h2⟩⟩
  · simp [Numeric.MarshalText, Numeric.StringRepr, NewNumber]
  · simp [Numeric.MarshalJSON, NewNumber]

theorem c4_roundtrip_integer_kinds_witness :
    ((NewNumber .int8 127).MarshalText = some (formatInt 127) ∧
      (NewNullNumber .int8).UnmarshalText (formatInt 127) = (⟨127, true, true⟩, none)) ∧
    ((NewNumber .int8 127).MarshalJSON = formatInt 127 ∧
      (NewNullNumber .int8).UnmarshalJSON (formatInt 127) = (⟨127, true, true⟩, none)) :=
  c4_roundtrip_integer_kinds .int8 127 (NewNullNumber .int8) (by decide) (by decide)
    (fun h => NumKind.noConfusion h)

/-- C5: with a null operand on either side, `Compare` fails with the
null-comparison error while `Greater`, `Less`, `GreaterOrEqual` and
`LessOrEqual` all return `false` without failing — on the same operands. -/
theorem c5_comparison_asymmetry (k : NumKind) (a b : Numeric k)
    (h : a.valid = false ∨ b.valid = false) :
    a.Compare b = .error .nullComparison ∧
    a.Greater b = false ∧ a.Less b = false ∧
    a.GreaterOrEqual b = false ∧ a.LessOrEqual b = false := by
  have hcond : (!a.valid || !b.valid) = true := by
    rcases h with h | h <;> simp [h]
  refine ⟨?_, ?_, ?_, ?_, ?_⟩ <;>
    simp [Numeric.Compare, Numeric.Greater, Numeric.Less, Numeric.GreaterOrEqual,
      Numeric.LessOrEqual, hcond]

theorem c5_comparison_asymmetry_witness :
    (NewNullNumber .int8).Compare (NewNumber .int8 1) = .error .nullComparison ∧
    (NewNullNumber .int8).Greater (NewNumber .int8 1) = false ∧
    (NewNullNumber .int8).Less (NewNumber .int8 1) = false ∧
    (NewNullNumber .int8).GreaterOrEqual (NewNumber .int8 1) = false ∧
    (NewNullNumber .int8).LessOrEqual (NewNumber .int8 1) = false :=
  c5_comparison_asymmetry .int8 (NewNullNumber .int8) (NewNumber .int8 1) (Or.inl rfl)

/-- C6: a null or zero-valued divisor makes `SafeDiv` return a null
result together with the division-by-zero failure and makes `Div` abort
(panic, embedded as `none`); a valid non-zero divisor makes both succeed
with the quotient. -/
theorem c6_division_policy (k : NumKind) (a b : Numeric k) :
    ((b.valid = false ∨ b.value = 0) →
      a.SafeDiv b = (NewNullNumber k, some .divisionByZero) ∧ a.Div b = none) ∧
    (b.valid = true → b.value ≠ 0 →
      a.SafeDiv b = (NewNumber k (k.wrap (a.value.tdiv b.value)), none) ∧
      a.Div b = some (NewNumber k (k.wrap (a.value.tdiv b.value)))) := by
  constructor
  · intro h
    have hcond : (!b.valid || b.value == 0) = true := by
      rcases h with h | h <;> simp [h]
    constructor
    · simp [Numeric.SafeDiv, hcond]
    · simp [Numeric.Div, Numeric.SafeDiv, hcond]
  · intro h1 h2
    have hcond : (!b.valid || b.value == 0) = false := by simp [h1, h2]
    constructor
    · simp [Numeric.SafeDiv, hcond]
    · simp [Numeric.Div, Numeric.SafeDiv, hcond]

theorem c6_division_policy_witness :
    ((NewNumber .int8 20).SafeDiv (NewNullNumber .int8)
        = (NewNullNumber .int8, some .divisionByZero) ∧
      (NewNumber .int8 20).Div (NewNullNumber .int8) = none) ∧
    ((NewNumber .int8 20).SafeDiv (NewNumber .int8 5)
        = (NewNumber .int8 (NumKind.int8.wrap ((20 : Int).tdiv 5)), none) ∧
      (NewNumber .int8 20).Div (NewNumber .int8 5)
        = some (NewNumber .int8 (NumKind.int8.wrap ((20 : Int).tdiv 5)))) :=
  ⟨(c6_division_policy .int8 (NewNumber .int8 20) (NewNullNumber .int8)).1 (Or.inl rfl),
    (c6_division_policy .int8 (NewNumber .int8 20) (NewNumber .int8 5)).2 rfl
      (by decide)⟩

/-- C7: `Add`, `Sub` and `Mult` return a null result when either operand
is null, and otherwise the native fixed-width result with two's-complement
wraparound; in particular int8 120 + 10 wraps to -126. -/
theorem c7_absorbing_wraparound_arithmetic :
    (∀ (k : NumKind) (a b : Numeric k),
      (a.valid = false ∨ b.valid = false →
        a.Add b = NewNullNumber k ∧ a.Sub b = NewNullNumber k ∧
        a.Mult b = NewNullNumber k) ∧
      (a.valid = true → b.valid = true →
        a.Add b = NewNumber k (k.wrap (a.value + b.value)) ∧
        a.Sub b = NewNumber k (k.wrap (a.value - b.value)) ∧
        a.Mult b = NewNumber k (k.wrap (a.value * b.value)))) ∧
    (NewNumber .int8 120).Add (NewNumber .int8 10) = NewNumber .int8 (-126) := by
  refine ⟨fun k a b => ⟨?_, ?_⟩, by decide⟩
  · intro h
    have hcond : (!a.valid || !b.valid) = true := by
      rcases h with h | h <;> simp [h]
    exact ⟨by simp [Numeric.Add, hcond], by simp [Numeric.Sub, hcond],
      by simp [Numeric.Mult, hcond]⟩
  · intro h1 h2
    have hcond : (!a.valid || !b.valid) = false := by simp [h1, h2]
    exact ⟨by simp [Numeric.Add, hcond], by simp [Numeric.Sub, hcond],
      by simp [Numeric.Mult, hcond]⟩

theorem c7_absorbing_wraparound_arithmetic_witness :
    (NewNumber .int8 3).Add (NewNullNumber .int8) = NewNullNumber .int8 ∧
    (NewNumber .int8 3).Add (NewNumber .int8 4)
      = NewNumber .int8 (NumKind.int8.wrap (3 + 4)) :=
  ⟨((c7_absorbing_wraparound_arithmetic.1 .int8 (NewNumber .int8 3)
      (NewNullNumber .int8)).1 (Or.inr rfl)).1,
   ((c7_absorbing_wraparound_arithmetic.1 .int8 (NewNumber .int8 3)
      (NewNumber .int8 4)).2 rfl rfl).1⟩

/-- C8 (counterexample): the claim says `EqualRaw` ignores the valid flag
for every wrapper, so a null duration (resp. instant) compared with the
zero duration (resp. zero instant) would return true; the duration and
time wrappers in fact require `valid` and return false. -/
theorem c8_counterexample :
    NewNullDuration.EqualRaw 0 = false ∧ NewNullTime.EqualRaw 0 = false := by
  decide

/-- C8 (amended): the numeric, string and byte wrappers' `EqualRaw`
compare the stored value only, ignoring the valid flag — so a null
instance against the zero raw value returns true — while the duration and
time wrappers' `EqualRaw` additionally require `valid = true` and return
false on any null instance. -/
theorem c8_equalraw_policy :
    (∀ (k : NumKind) (n : Numeric k) (x : Int), n.EqualRaw x = (n.value == x)) ∧
    (∀ k : NumKind, (NewNullNumber k).EqualRaw 0 = true) ∧
    (∀ (s : ZString) (x : Str), s.EqualRaw x = (s.value == x)) ∧
    (NewNullZString.EqualRaw "" = true) ∧
    (∀ (b : Byte) (x : Int), b.EqualRaw x = (b.value == x)) ∧
    (NewNullByte.EqualRaw 0 = true) ∧
    (∀ (d : Duration) (x : Int), d.valid = false → d.EqualRaw x = false) ∧
    (∀ (t : Time) (x : Int), t.valid = false → t.EqualRaw x = false) := by
  refine ⟨fun k n x => rfl, fun k => rfl, fun s x => rfl, by decide,
    fun b x => rfl, by decide, ?_, ?_⟩
  · intro d x hd
    simp [Duration.EqualRaw, hd]
  · intro t x ht
    simp [Time.EqualRaw, ht]

theorem c8_equalraw_policy_witness :
    (NewNullNumber .int8).EqualRaw 0 = true ∧
    Duration.EqualRaw ⟨5, false, false⟩ 5 = false ∧
    Time.EqualRaw ⟨5, false, false⟩ 5 = false :=
  ⟨c8_equalraw_policy.2.1 .int8,
    c8_equalraw_policy.2.2.2.2.2.2.1 ⟨5, false, false⟩ 5 rfl,
    c8_equalraw_policy.2.2.2.2.2.2.2 ⟨5, false, false⟩ 5 rfl⟩

/-- C9: `Scan(nil)` clears the valid flag (and zeroes the value) for
every kind, and `Value` yields the nil driver value on an invalid
wrapper and otherwise the signed 64-bit downcast for integer kinds and
the 64-bit float for float kinds. -/
theorem c9_storage_bridge :
    (∀ (k : NumKind) (n : Numeric k),
      n.Scan .null = ({ n with value := 0, valid := false }, none)) ∧
    (∀ n : NumericF, n.Scan .null = ({ n with value := 0, valid := false }, none)) ∧
    (∀ (k : NumKind) (n : Numeric k), n.valid = false → n.Value = none) ∧
    (∀ (k : NumKind) (n : Numeric k), n.valid = true →
      n.Value = some (.i64 (NumKind.int64.wrap n.value))) ∧
    (∀ n : NumericF, n.valid = false → n.Value = none) ∧
    (∀ n : NumericF, n.valid = true → n.Value = some (.f64 n.value)) := by
  refine ⟨fun k n => rfl, fun n => rfl, ?_, ?_, ?_, ?_⟩
  · intro k n h; simp [Numeric.Value, h]
  · intro k n h; simp [Numeric.Value, h]
  · intro n h; simp [NumericF.Value, h]
  · intro n h; simp [NumericF.Value, h]

theorem c9_storage_bridge_witness :
    (NewNumber .int8 7).Scan .null
      = ({ NewNumber .int8 7 with value := 0, valid := false }, none) ∧
    (NewNullNumber .int8).Value = none ∧
    (NewNumber .int8 7).Value = some (.i64 (NumKind.int64.wrap 7)) :=
  ⟨c9_storage_bridge.1 .int8 (NewNumber .int8 7),
    c9_storage_bridge.2.2.1 .int8 (NewNullNumber .int8) rfl,
    c9_storage_bridge.2.2.2.1 .int8 (NewNumber .int8 7) rfl⟩

/-- C10 (counterexample): a null dividend need not yield a valid zero —
`SafeDiv` divides whatever value is stored, and a null wrapper can carry
stale residue (reached here by `NewNumber 42` then an empty text decode),
so dividing it by a valid 1 returns a valid 42, not a valid zero. -/
theorem c10_counterexample :
    ((NewNumber .int8 42).UnmarshalText "").1.valid = false ∧
    ((NewNumber .int8 42).UnmarshalText "").1.SafeDiv (NewNumber .int8 1)
      = (NewNumber .int8 42, none) ∧
    NewNumber .int8 42 ≠ NewNumber .int8 0 := by
  decide

/-- C10 (amended): `SafeDiv` and `Div` ignore the dividend's valid flag —
for any dividend and any valid non-zero divisor they return a valid
result holding the quotient of the stored values, with no failure and no
abort; in particular a null dividend whose stored value is zero (as every
`NewNullNumber`-built one is) yields a valid zero. -/
theorem c10_dividend_null_ignored (k : NumKind) (n d : Numeric k)
    (h1 : d.valid = true) (h2 : d.value ≠ 0) :
    n.SafeDiv d = (NewNumber k (k.wrap (n.value.tdiv d.value)), none) ∧
    n.Div d = some (NewNumber k (k.wrap (n.value.tdiv d.value))) ∧
    (n.valid = false → n.value = 0 →
      n.SafeDiv d = (NewNumber k 0, none) ∧ n.Div d = some (NewNumber k 0)) := by
  have hcond : (!d.valid || d.value == 0) = false := by simp [h1, h2]
  have hw : k.wrap 0 = 0 := by cases k <;> decide
  refine ⟨by simp [Numeric.SafeDiv, hcond], by simp [Numeric.Div, Numeric.SafeDiv, hcond], ?_⟩
  intro _ hz
  constructor
  · simp [Numeric.SafeDiv, hcond, hz, hw]
  · simp [Numeric.Div, Numeric.SafeDiv, hcond, hz, hw]

theorem c10_dividend_null_ignored_witness :
    (NewNullNumber .int8).SafeDiv (NewNumber .int8 2)
      = (NewNumber .int8 (NumKind.int8.wrap ((0 : Int).tdiv 2)), none) ∧
    (NewNullNumber .int8).Div (NewNumber .int8 2)
      = some (NewNumber .int8 (NumKind.int8.wrap ((0 : Int).tdiv 2))) ∧
    ((NewNullNumber .int8).valid = false → (NewNullNumber .int8).value = 0 →
      (NewNullNumber .int8).SafeDiv (NewNumber .int8 2) = (NewNumber .int8 0, none) ∧
      (NewNullNumber .int8).Div (NewNumber .int8 2) = some (NewNumber .int8 0)) :=
  c10_dividend_null_ignored .int8 (NewNullNumber .int8) (NewNumber .int8 2) rfl
    (by decide)

end ZType
